import Mathlib

/-!
Shallow embedding of the three admin widgets of this repository:

* the customer-notes widget (`src/unnamed/part_000`, `CustomerNotesWidget`),
* the password-restriction widget
  (`src/backend/src/admin/widgets/password-ristriction.tsx`), and
* the product quicklinks widget
  (`src/backend/src/admin/widgets/quick-link.tsx`).

Each widget keeps a local React state and mirrors one field of a remote
entity's `metadata` key-value bag through the admin SDK.  The embedding
renders the widget handlers as pure functions: every external interaction
(an awaited `sdk.admin.*.retrieve` / `update` call, or the platform
`JSON.parse`) is passed in as an explicit outcome, and every observable
side effect (`alert`, `console.error`, the metadata object carried by the
issued update request, the committed React state) is part of the returned
value.  JavaScript objects are modelled as association lists in insertion
order, and the object spread `{...m, k: v}` as `Meta.setKey`.  Since the
handlers are total Lean functions, "does not throw past the component
boundary" is rendered by the handler returning a value on every input.
-/

namespace Widgets

/-- JSON values, as produced by the platform `JSON.parse` / consumed by
`JSON.stringify`.  Objects keep their keys in insertion order, matching
JavaScript object semantics. -/
inductive Json where
  | null : Json
  | bool (b : Bool) : Json
  | num (n : Int) : Json
  | str (s : String) : Json
  | arr (elems : List Json) : Json
  | obj (fields : List (String × Json)) : Json

mutual

def Json.decEq : (a b : Json) → Decidable (a = b)
  | .null, .null => isTrue rfl
  | .bool a, .bool b =>
    if h : a = b then isTrue (by rw [h]) else isFalse (fun hc => h (Json.bool.inj hc))
  | .num a, .num b =>
    if h : a = b then isTrue (by rw [h]) else isFalse (fun hc => h (Json.num.inj hc))
  | .str a, .str b =>
    if h : a = b then isTrue (by rw [h]) else isFalse (fun hc => h (Json.str.inj hc))
  | .arr xs, .arr ys =>
    match Json.decEqList xs ys with
    | isTrue h => isTrue (by rw [h])
    | isFalse h => isFalse (fun hc => h (Json.arr.inj hc))
  | .obj xs, .obj ys =>
    match Json.decEqFields xs ys with
    | isTrue h => isTrue (by rw [h])
    | isFalse h => isFalse (fun hc => h (Json.obj.inj hc))
  | .null, .bool _ => isFalse (fun h => Json.noConfusion h)
  | .null, .num _ => isFalse (fun h => Json.noConfusion h)
  | .null, .str _ => isFalse (fun h => Json.noConfusion h)
  | .null, .arr _ => isFalse (fun h => Json.noConfusion h)
  | .null, .obj _ => isFalse (fun h => Json.noConfusion h)
  | .bool _, .null => isFalse (fun h => Json.noConfusion h)
  | .bool _, .num _ => isFalse (fun h => Json.noConfusion h)
  | .bool _, .str _ => isFalse (fun h => Json.noConfusion h)
  | .bool _, .arr _ => isFalse (fun h => Json.noConfusion h)
  | .bool _, .obj _ => isFalse (fun h => Json.noConfusion h)
  | .num _, .null => isFalse (fun h => Json.noConfusion h)
  | .num _, .bool _ => isFalse (fun h => Json.noConfusion h)
  | .num _, .str _ => isFalse (fun h => Json.noConfusion h)
  | .num _, .arr _ => isFalse (fun h => Json.noConfusion h)
  | .num _, .obj _ => isFalse (fun h => Json.noConfusion h)
  | .str _, .null => isFalse (fun h => Json.noConfusion h)
  | .str _, .bool _ => isFalse (fun h => Json.noConfusion h)
  | .str _, .num _ => isFalse (fun h => Json.noConfusion h)
  | .str _, .arr _ => isFalse (fun h => Json.noConfusion h)
  | .str _, .obj _ => isFalse (fun h => Json.noConfusion h)
  | .arr _, .null => isFalse (fun h => Json.noConfusion h)
  | .arr _, .bool _ => isFalse (fun h => Json.noConfusion h)
  | .arr _, .num _ => isFalse (fun h => Json.noConfusion h)
  | .arr _, .str _ => isFalse (fun h => Json.noConfusion h)
  | .arr _, .obj _ => isFalse (fun h => Json.noConfusion h)
  | .obj _, .null => isFalse (fun h => Json.noConfusion h)
  | .obj _, .bool _ => isFalse (fun h => Json.noConfusion h)
  | .obj _, .num _ => isFalse (fun h => Json.noConfusion h)
  | .obj _, .str _ => isFalse (fun h => Json.noConfusion h)
  | .obj _, .arr _ => isFalse (fun h => Json.noConfusion h)

def Json.decEqList : (xs ys : List Json) → Decidable (xs = ys)
  | [], [] => isTrue rfl
  | [], _ :: _ => isFalse (fun h => List.noConfusion h)
  | _ :: _, [] => isFalse (fun h => List.noConfusion h)
  | x :: xs, y :: ys =>
    match Json.decEq x y with
    | isTrue h1 =>
      match Json.decEqList xs ys with
      | isTrue h2 => isTrue (by rw [h1, h2])
      | isFalse h2 => isFalse (fun hc => h2 (List.cons.inj hc).2)
    | isFalse h1 => isFalse (fun hc => h1 (List.cons.inj hc).1)

def Json.decEqFields : (xs ys : List (String × Json)) → Decidable (xs = ys)
  | [], [] => isTrue rfl
  | [], _ :: _ => isFalse (fun h => List.noConfusion h)
  | _ :: _, [] => isFalse (fun h => List.noConfusion h)
  | (k, v) :: xs, (l, w) :: ys =>
    if hk : k = l then
      match Json.decEq v w with
      | isTrue h1 =>
        match Json.decEqFields xs ys with
        | isTrue h2 => isTrue (by rw [hk, h1, h2])
        | isFalse h2 => isFalse (fun hc => h2 (List.cons.inj hc).2)
      | isFalse h1 => isFalse (fun hc => h1 (congrArg Prod.snd (List.cons.inj hc).1))
    else isFalse (fun hc => hk (congrArg Prod.fst (List.cons.inj hc).1))

end

instance : DecidableEq Json := Json.decEq

/-- JavaScript truthiness of a JSON value, as used by the widgets' guards
(`if (customer?.metadata?.notes)` and friends): `null`/`undefined`, `false`,
`0` and the empty string are falsy; arrays and objects are always truthy. -/
def Json.truthy : Json → Bool
  | .null => false
  | .bool b => b
  | .num n => n != 0
  | .str s => s != ""
  | .arr _ => true
  | .obj _ => true

/-- One character of `JSON.stringify`'s string escaping: quote, backslash
and the control-character short forms, `\u00XX` for the remaining control
characters, every other character unchanged. -/
def escapeChar (c : Char) : String :=
  if c = '"' then "\\\""
  else if c = '\\' then "\\\\"
  else if c = '\n' then "\\n"
  else if c = '\t' then "\\t"
  else if c = '\r' then "\\r"
  else if c.toNat = 8 then "\\b"
  else if c.toNat = 12 then "\\f"
  else if c.toNat < 32 then
    "\\u00" ++ String.mk [Nat.digitChar (c.toNat / 16), Nat.digitChar (c.toNat % 16)]
  else String.singleton c

/-- `JSON.stringify` on a string: quoted, characters escaped. -/
def encodeString (s : String) : String :=
  "\"" ++ String.join (s.toList.map escapeChar) ++ "\""

mutual

/-- The platform `JSON.stringify` on the modelled JSON values (the widgets
apply it to arrays of note / quicklink records). -/
def Json.stringify : Json → String
  | .null => "null"
  | .bool true => "true"
  | .bool false => "false"
  | .num n => toString n
  | .str s => encodeString s
  | .arr xs => "[" ++ Json.stringifyElems xs ++ "]"
  | .obj fs => "\x7b" ++ Json.stringifyFields fs ++ "\x7d"

def Json.stringifyElems : List Json → String
  | [] => ""
  | [x] => Json.stringify x
  | x :: y :: xs => Json.stringify x ++ "," ++ Json.stringifyElems (y :: xs)

def Json.stringifyFields : List (String × Json) → String
  | [] => ""
  | [(k, v)] => encodeString k ++ ":" ++ Json.stringify v
  | (k, v) :: f :: fs =>
    encodeString k ++ ":" ++ Json.stringify v ++ "," ++ Json.stringifyFields (f :: fs)

end

/-- A `metadata` bag: a JavaScript object, i.e. keys in insertion order,
each key at most once in a well-formed bag (lookups take the first hit,
as property access does). -/
abbrev Meta := List (String × Json)

namespace Meta

/-- Property read `m[k]`: the value at the first occurrence of key `k`,
or `none` (JavaScript `undefined`) when the key is absent. -/
def getKey : Meta → String → Option Json
  | [], _ => none
  | p :: m, k => if p.1 = k then some p.2 else getKey m k

/-- The object spread update `{...m, k: v}`: every existing key keeps its
position and value except `k`, which is bound to `v`; a fresh key is
appended last. -/
def setKey (m : Meta) (k : String) (v : Json) : Meta :=
  if m.any (fun p => p.1 == k) then
    m.map (fun p => if p.1 = k then (k, v) else p)
  else
    m ++ [(k, v)]

end Meta

/-- The customer entity as the two widgets on the customer page use it:
an id and the optional metadata bag (`Customer` in
`password-ristriction.tsx`; the notes widget reads the same two fields of
the untyped `customer` object). -/
structure Customer where
  id : String
  metadata : Option Meta
deriving DecidableEq

/-- The product entity as the quicklinks widget uses it (`Product` in
`quick-link.tsx`). -/
structure Product where
  id : String
  title : String
  handle : String
  metadata : Option Meta
deriving DecidableEq

/-- The `Note` record of the notes widget. -/
structure Note where
  id : Int
  content : String
  timestamp : String
  createdBy : String
  lastEdited : Option String := none
deriving DecidableEq

/-- The `type` tag of a quicklink: `'custom' | 'product' | 'collection'`. -/
inductive LinkType where
  | custom : LinkType
  | product : LinkType
  | collection : LinkType
deriving DecidableEq

/-- The serialized form of a link-type tag. -/
def LinkType.toStr : LinkType → String
  | .custom => "custom"
  | .product => "product"
  | .collection => "collection"

/-- The `Quicklink` record of the quicklinks widget. -/
structure Quicklink where
  title : String
  link : String
  type : LinkType
deriving DecidableEq

/-- `JSON.stringify` of one note record: fields in declaration order,
`lastEdited` present only when set (a JavaScript object simply lacks the
property until an edit writes it). -/
def encodeNote (n : Note) : Json :=
  Json.obj
    ([("id", Json.num n.id), ("content", Json.str n.content),
      ("timestamp", Json.str n.timestamp), ("createdBy", Json.str n.createdBy)] ++
      (match n.lastEdited with
       | some s => [("lastEdited", Json.str s)]
       | none => []))

/-- The typed reading of one parsed note: the source's `as Note[]` cast
rendered as a checked field projection (on values produced by
`encodeNote` it recovers the record exactly). -/
def decodeNote (j : Json) : Option Note :=
  match j with
  | Json.obj fs =>
    match Meta.getKey fs "id", Meta.getKey fs "content",
        Meta.getKey fs "timestamp", Meta.getKey fs "createdBy" with
    | some (Json.num i), some (Json.str c), some (Json.str t), some (Json.str a) =>
      match Meta.getKey fs "lastEdited" with
      | some (Json.str e) => some ⟨i, c, t, a, some e⟩
      | none => some ⟨i, c, t, a, none⟩
      | some _ => none
    | _, _, _, _ => none
  | _ => none

/-- The JSON array `JSON.stringify(updatedNotes)` serializes. -/
def encodeNotes (l : List Note) : Json :=
  Json.arr (l.map encodeNote)

/-- `JSON.stringify(updatedNotes)` as the update request carries it. -/
def stringifyNotes (l : List Note) : String :=
  (encodeNotes l).stringify

/-- Elementwise typed reading of a parsed array (the `as Note[]` cast
applied to each element). -/
def decodeNoteList : List Json → Option (List Note)
  | [] => some []
  | j :: js =>
    match decodeNote j, decodeNoteList js with
    | some n, some l => some (n :: l)
    | _, _ => none

/-- The load path on a parsed JSON value, typed: `fetchCustomer`'s
`Array.isArray` check (a non-array value is replaced by the empty list)
followed by the elementwise `as Note[]` cast rendered as `decodeNote`. -/
def decodeNotes (j : Json) : Option (List Note) :=
  match j with
  | Json.arr xs => decodeNoteList xs
  | _ => some []

/-- `JSON.stringify` of one quicklink record. -/
def encodeQuicklink (q : Quicklink) : Json :=
  Json.obj
    [("title", Json.str q.title), ("link", Json.str q.link),
     ("type", Json.str q.type.toStr)]

/-- The typed reading of one parsed quicklink (the source's cast). -/
def decodeQuicklink (j : Json) : Option Quicklink :=
  match j with
  | Json.obj fs =>
    match Meta.getKey fs "title", Meta.getKey fs "link", Meta.getKey fs "type" with
    | some (Json.str t), some (Json.str l), some (Json.str "custom") =>
      some ⟨t, l, LinkType.custom⟩
    | some (Json.str t), some (Json.str l), some (Json.str "product") =>
      some ⟨t, l, LinkType.product⟩
    | some (Json.str t), some (Json.str l), some (Json.str "collection") =>
      some ⟨t, l, LinkType.collection⟩
    | _, _, _ => none
  | _ => none

/-- The JSON array `JSON.stringify(updatedQuicklinks)` serializes. -/
def encodeQuicklinks (l : List Quicklink) : Json :=
  Json.arr (l.map encodeQuicklink)

/-- `JSON.stringify(updatedQuicklinks)` as the update request carries it. -/
def stringifyQuicklinks (l : List Quicklink) : String :=
  (encodeQuicklinks l).stringify

/-- Elementwise typed reading of a parsed array of quicklinks. -/
def decodeQuicklinkList : List Json → Option (List Quicklink)
  | [] => some []
  | j :: js =>
    match decodeQuicklink j, decodeQuicklinkList js with
    | some q, some l => some (q :: l)
    | _, _ => none

/-- The load path on a parsed JSON value for quicklinks (same shape as
`decodeNotes`, from `loadProduct` in `quick-link.tsx`). -/
def decodeQuicklinks (j : Json) : Option (List Quicklink) :=
  match j with
  | Json.arr xs => decodeQuicklinkList xs
  | _ => some []

/-- Outcome of one awaited remote call: it resolves with a value or it
throws (`err`, landing in the `catch` of the caller). -/
inductive RCall (α : Type) where
  | ok (val : α) : RCall α
  | err : RCall α
deriving DecidableEq

/-- The decode stage shared verbatim by `fetchCustomer` (notes) and
`loadProduct` (quicklinks): given the raw value of the synchronized
metadata field (`none` = property absent) and the outcome of
`JSON.parse` on it (`RCall.err` models a thrown parse exception), it
returns the list committed to local state, paired with whether the
`catch` branch ran `console.error`.  A falsy or absent field skips the
whole block, leaving the list at its initial `[]`; a successfully parsed
non-array is replaced by `[]` by the `Array.isArray` ternary, which logs
nothing. -/
def loadListField (field : Option Json) (parsed : RCall Json) : List Json × Bool :=
  match field with
  | none => ([], false)
  | some v =>
    if v.truthy then
      match parsed with
      | .err => ([], true)
      | .ok (Json.arr xs) => (xs, false)
      | .ok _ => ([], false)
    else ([], false)

/-- JavaScript `String.prototype.trim`, as the widgets' input guards use
it: strip leading and trailing whitespace.  (Defined by structural
recursion over the character list so that concrete guard evaluations
reduce.) -/
def jsTrim (s : String) : String :=
  String.mk (((s.toList.dropWhile Char.isWhitespace).reverse.dropWhile
    Char.isWhitespace).reverse)

/-- Local React state of `CustomerNotesWidget`. -/
structure NotesState where
  customer : Option Customer
  notes : List Note
  newNote : String
  editingIndex : Option Nat
  isSaving : Bool
deriving DecidableEq

/-- Outcomes of the two remote calls a notes write-back performs: the
re-fetch `sdk.admin.customer.retrieve(customer.id)` and the
`sdk.admin.customer.update(...)`.  An update that resolves is modelled
with the optional `customer` field of its response (`ok none` = resolved
without an updated entity). -/
structure NotesOutcome where
  retrieve : RCall Customer
  update : RCall (Option Customer)
deriving DecidableEq

/-- Observable result of one `updateCustomerMetadata` call: the returned
boolean, whether `alert` fired, whether `console.error` fired, the
metadata object carried by the issued update request (`none` when no
update request was issued), and the state after the call. -/
structure NotesWBResult where
  success : Bool
  alerted : Bool
  logged : Bool
  sent : Option Meta
  state : NotesState
deriving DecidableEq

/-- The metadata object the notes write-back sends:
`{...latest.metadata, notes: JSON.stringify(updatedNotes)}`. -/
def sentNotesMeta (latest : Customer) (updatedNotes : List Note) : Meta :=
  Meta.setKey (latest.metadata.getD []) "notes" (Json.str (stringifyNotes updatedNotes))

/-- `updateCustomerMetadata` of the notes widget: guard on a missing or
falsy customer id; re-fetch the customer; send the update with the merged
metadata; throw into the local `catch` when the update resolves without a
customer; on the `catch` path log, alert and return `false`; commit the
updated customer and return `true` otherwise.  `setIsSaving(false)` runs
in `finally` on every path past the guard. -/
def updateCustomerMetadata (st : NotesState) (updatedNotes : List Note)
    (o : NotesOutcome) : NotesWBResult :=
  match st.customer with
  | none => ⟨false, false, false, none, st⟩
  | some c =>
    if c.id = "" then ⟨false, false, false, none, st⟩
    else
      match o.retrieve with
      | .err => ⟨false, true, true, none, { st with isSaving := false }⟩
      | .ok latest =>
        let sent := sentNotesMeta latest updatedNotes
        match o.update with
        | .err => ⟨false, true, true, some sent, { st with isSaving := false }⟩
        | .ok none => ⟨false, true, true, some sent, { st with isSaving := false }⟩
        | .ok (some updated) =>
          ⟨true, false, false, some sent,
            { st with customer := some updated, isSaving := false }⟩

/-- `addNote`: guard on a blank buffer, build the note from the trimmed
buffer and the ambient clock (`Date.now()` and the ISO timestamp are
parameters), write back, and commit `updatedNotes` plus a cleared buffer
only on success.  The second component is the write-back result
(`none` when the guard returned early). -/
def addNote (st : NotesState) (now : Int) (nowIso : String) (o : NotesOutcome) :
    NotesState × Option NotesWBResult :=
  if jsTrim st.newNote = "" then (st, none)
  else
    let newNoteObj : Note := ⟨now, jsTrim st.newNote, nowIso, "Admin", none⟩
    let updatedNotes := st.notes ++ [newNoteObj]
    let r := updateCustomerMetadata st updatedNotes o
    if r.success then ({ r.state with notes := updatedNotes, newNote := "" }, some r)
    else (r.state, some r)

/-- The list `deleteNote` computes: `notes.filter((note) => note.id !== noteId)`. -/
def deleteNoteList (notes : List Note) (noteId : Int) : List Note :=
  notes.filter (fun note => note.id != noteId)

/-- `deleteNote`: filter out the id, write back, commit on success. -/
def deleteNote (st : NotesState) (noteId : Int) (o : NotesOutcome) :
    NotesState × NotesWBResult :=
  let updatedNotes := deleteNoteList st.notes noteId
  let r := updateCustomerMetadata st updatedNotes o
  if r.success then ({ r.state with notes := updatedNotes }, r) else (r.state, r)

/-- The list `saveEdit` computes: the note matching `noteId` gets the
trimmed buffer as content and a fresh `lastEdited`; every other note is
returned unchanged. -/
def saveEditList (notes : List Note) (noteId : Int) (newContent : String)
    (nowIso : String) : List Note :=
  notes.map (fun note =>
    if note.id = noteId then
      { note with content := newContent, lastEdited := some nowIso }
    else note)

/-- `saveEdit`: map the edit over the list, write back, and on success
commit the list, leave edit mode and clear the buffer. -/
def saveEdit (st : NotesState) (noteId : Int) (nowIso : String) (o : NotesOutcome) :
    NotesState × NotesWBResult :=
  let updatedNotes := saveEditList st.notes noteId (jsTrim st.newNote) nowIso
  let r := updateCustomerMetadata st updatedNotes o
  if r.success then
    ({ r.state with notes := updatedNotes, editingIndex := none, newNote := "" }, r)
  else (r.state, r)

/-- The outcome shapes on which the notes write-back reports failure:
the re-fetch throws, the update throws, or the update resolves without a
customer. -/
def notesWBFails (o : NotesOutcome) : Bool :=
  match o.retrieve with
  | .err => true
  | .ok _ =>
    match o.update with
    | .err => true
    | .ok none => true
    | .ok (some _) => false

/-- Local React state of `QuicklinksManager` (the fields involved in the
synchronization logic; the picker lists and search terms do not feed the
write-back). -/
structure QLState where
  currentProduct : Option Product
  quicklinks : List Quicklink
  title : String
  link : String
  linkType : LinkType
  isSaving : Bool
deriving DecidableEq

/-- Outcomes of the two remote calls a quicklinks write-back performs. -/
structure QLOutcome where
  retrieve : RCall Product
  update : RCall (Option Product)
deriving DecidableEq

/-- Observable result of one `updateProductMetadata` call (same reading
as `NotesWBResult`; this widget never calls `alert`). -/
structure QLWBResult where
  success : Bool
  alerted : Bool
  logged : Bool
  sent : Option Meta
  state : QLState
deriving DecidableEq

/-- The metadata object the quicklinks write-back sends:
`{...latest.metadata, quicklinks: JSON.stringify(updatedQuicklinks)}`. -/
def sentQLMeta (latest : Product) (updatedQuicklinks : List Quicklink) : Meta :=
  Meta.setKey (latest.metadata.getD []) "quicklinks"
    (Json.str (stringifyQuicklinks updatedQuicklinks))

/-- `updateProductMetadata` of the quicklinks widget: guard on a missing
or falsy product id; re-fetch the product; send the update with the
merged metadata.  The update response is awaited but never inspected, so
any resolved update counts as success — even one carrying no product —
and the local `currentProduct` is never refreshed.  The `catch` path only
logs (`console.error`); there is no `alert` anywhere in this widget. -/
def updateProductMetadata (st : QLState) (updatedQuicklinks : List Quicklink)
    (o : QLOutcome) : QLWBResult :=
  match st.currentProduct with
  | none => ⟨false, false, false, none, st⟩
  | some p =>
    if p.id = "" then ⟨false, false, false, none, st⟩
    else
      match o.retrieve with
      | .err => ⟨false, false, true, none, { st with isSaving := false }⟩
      | .ok latest =>
        let sent := sentQLMeta latest updatedQuicklinks
        match o.update with
        | .err => ⟨false, false, true, some sent, { st with isSaving := false }⟩
        | .ok _ => ⟨true, false, false, some sent, { st with isSaving := false }⟩

/-- `handleAddQuicklink`: guard on a blank link (or a blank title for a
custom link), build the record (`title: title || link`,
`link: link.trim()`), write back, and on success commit the list and
reset the input fields. -/
def handleAddQuicklink (st : QLState) (o : QLOutcome) :
    QLState × Option QLWBResult :=
  if jsTrim st.link = "" ∨ (st.linkType = LinkType.custom ∧ jsTrim st.title = "") then
    (st, none)
  else
    let newQuicklink : Quicklink :=
      ⟨if st.title = "" then st.link else st.title, jsTrim st.link, st.linkType⟩
    let updatedQuicklinks := st.quicklinks ++ [newQuicklink]
    let r := updateProductMetadata st updatedQuicklinks o
    if r.success then
      ({ r.state with
          quicklinks := updatedQuicklinks, title := "", link := "",
          linkType := LinkType.custom }, some r)
    else (r.state, some r)

/-- The list `handleRemoveQuicklink` computes:
`quicklinks.filter((_, i) => i !== index)` — identity is the array
position, not a stable key. -/
def removeAtIdx (l : List Quicklink) (index : Nat) : List Quicklink :=
  (l.enum.filter (fun p => p.1 != index)).map (fun p => p.2)

/-- `handleRemoveQuicklink`: filter out the position, write back, commit
on success. -/
def handleRemoveQuicklink (st : QLState) (index : Nat) (o : QLOutcome) :
    QLState × QLWBResult :=
  let updatedQuicklinks := removeAtIdx st.quicklinks index
  let r := updateProductMetadata st updatedQuicklinks o
  if r.success then ({ r.state with quicklinks := updatedQuicklinks }, r)
  else (r.state, r)

/-- The outcome shapes on which the quicklinks write-back reports
failure: only a thrown re-fetch or a thrown update (an update resolving
without a product still counts as success — the response payload is
never inspected). -/
def qlWBFails (o : QLOutcome) : Bool :=
  match o.retrieve with
  | .err => true
  | .ok _ =>
    match o.update with
    | .err => true
    | .ok _ => false

/-- Local React state of `PasswordRestrictionWidget`.  `passwordOption`
is declared `boolean` in the source but is populated through an uncheck
ed cast from the metadata bag, so its model carries the raw JSON value
(the widget itself only ever writes `Json.bool`). -/
structure PwState where
  customer : Option Customer
  passwordOption : Json
  isSaving : Bool
deriving DecidableEq

/-- The mount-time extraction
`customer?.metadata?.can_change_password as boolean ?? true`: the stored
value when the chain produces one, `true` when the bag or the key is
absent or the stored value is `null` (`??` fires on null/undefined
only). -/
def loadPasswordOption (c : Customer) : Json :=
  match c.metadata with
  | none => Json.bool true
  | some m =>
    match Meta.getKey m "can_change_password" with
    | none => Json.bool true
    | some Json.null => Json.bool true
    | some v => v

/-- Observable result of one `handleOptionChange` call. -/
structure PwResult where
  success : Bool
  alerted : Bool
  logged : Bool
  sent : Option Meta
  state : PwState
deriving DecidableEq

/-- `handleOptionChange` of the password-restriction widget: guard on a
missing or falsy customer id, then — with NO re-fetch — send the update
with `{...customer.metadata, can_change_password: option}` built from
the widget's cached `customer` state; on a thrown update or an update
resolving without a customer, log (`console.error`) and keep the local
state (no `alert` in this widget); on success commit the updated
customer and the new flag. -/
def handleOptionChange (st : PwState) (option : Bool)
    (update : RCall (Option Customer)) : PwResult :=
  match st.customer with
  | none => ⟨false, false, false, none, st⟩
  | some c =>
    if c.id = "" then ⟨false, false, false, none, st⟩
    else
      let sent := Meta.setKey (c.metadata.getD []) "can_change_password" (Json.bool option)
      match update with
      | .err => ⟨false, false, true, some sent, { st with isSaving := false }⟩
      | .ok none => ⟨false, false, true, some sent, { st with isSaving := false }⟩
      | .ok (some updated) =>
        ⟨true, false, false, some sent,
          { st with
            customer := some updated, passwordOption := Json.bool option,
            isSaving := false }⟩

/-- Modelled from the spec (§4.2): what the single-flag `set(value)` is
claimed to send — the merge of the FRESHLY RE-FETCHED remote metadata
with the new flag value.  The argument is the metadata bag such a
re-fetch would return.  (The source's `handleOptionChange` issues no
re-fetch; this definition exists to compare the claim against it.) -/
def specFlagSent (remoteMeta : Option Meta) (value : Bool) : Meta :=
  Meta.setKey (remoteMeta.getD []) "can_change_password" (Json.bool value)

/-- Whether a `JSON.parse` call resolved with an array — the
`Array.isArray` test lifted to the outcome level: `false` both when the
parse threw and when it produced a non-array value. -/
def isArrCall : RCall Json → Bool
  | RCall.ok (Json.arr _) => true
  | _ => false

/-! Concrete fixtures used by the closed witness and counterexample
theorems below. -/

/-- A sample note. -/
def noteA : Note := ⟨1, "hi", "t0", "Admin", none⟩

/-- A second sample note, with an edit timestamp. -/
def noteB : Note := ⟨2, "bye", "t1", "Admin", some "t2"⟩

/-- The customer as the widget cached it at mount time. -/
def custBase : Customer := ⟨"cus_1", some []⟩

/-- The customer a re-fetch returns, carrying an unrelated key `a`. -/
def custLatest : Customer := ⟨"cus_1", some [("a", Json.num 1)]⟩

/-- A notes-widget state with one note and a non-blank input buffer. -/
def notesStFx : NotesState := ⟨some custBase, [noteA], "hello", none, false⟩

/-- Outcome: re-fetch and update both succeed with a customer. -/
def notesOutOk : NotesOutcome := ⟨RCall.ok custLatest, RCall.ok (some custLatest)⟩

/-- Outcome: re-fetch succeeds, update throws. -/
def notesOutFail : NotesOutcome := ⟨RCall.ok custLatest, RCall.err⟩

/-- A sample quicklink. -/
def qlA : Quicklink := ⟨"T", "l", LinkType.custom⟩

/-- The product as the widget cached it at mount time. -/
def prodBase : Product := ⟨"prod_1", "P", "p", some []⟩

/-- The product a re-fetch returns, carrying an unrelated key `a`. -/
def prodLatest : Product := ⟨"prod_1", "P", "p", some [("a", Json.num 1)]⟩

/-- A quicklinks-widget state with one quicklink and filled-in inputs. -/
def qlStFx : QLState := ⟨some prodBase, [qlA], "T2", "l2", LinkType.custom, false⟩

/-- Outcome: re-fetch and update both succeed with a product. -/
def qlOutOk : QLOutcome := ⟨RCall.ok prodLatest, RCall.ok (some prodLatest)⟩

/-- Outcome: re-fetch succeeds, update throws. -/
def qlOutFail : QLOutcome := ⟨RCall.ok prodLatest, RCall.err⟩

/-- Outcome: re-fetch succeeds, update resolves without a product. -/
def qlOutUnconfirmed : QLOutcome := ⟨RCall.ok prodLatest, RCall.ok none⟩

/-- The password widget's cached customer (`a ↦ 1`). -/
def pwCached : Customer := ⟨"cus_1", some [("a", Json.num 1)]⟩

/-- The customer currently on the remote: `a` was changed out-of-band to
`2` after the widget cached `pwCached`. -/
def pwRemote : Customer := ⟨"cus_1", some [("a", Json.num 2)]⟩

/-- A password-widget state holding the stale `pwCached`. -/
def pwStFx : PwState := ⟨some pwCached, Json.bool true, false⟩

/-! Auxiliary lemmas about the metadata-bag operations. -/

namespace Meta

theorem getKey_map_update (m : Meta) (k k' : String) (v : Json) (h : k' ≠ k) :
    getKey (m.map (fun p => if p.1 = k then (k, v) else p)) k' = getKey m k' := by
  induction m with
  | nil => rfl
  | cons p m ih =>
    by_cases hp : p.1 = k
    · simp [getKey, hp, Ne.symm h, ih]
    · by_cases hp' : p.1 = k'
      · simp [getKey, hp, hp', h]
      · simp [getKey, hp, hp', ih]

theorem getKey_append_single (m : Meta) (k k' : String) (v : Json) (h : k' ≠ k) :
    getKey (m ++ [(k, v)]) k' = getKey m k' := by
  induction m with
  | nil => simp [getKey, Ne.symm h]
  | cons p m ih =>
    by_cases hp : p.1 = k'
    · simp [getKey, hp]
    · simp [getKey, hp, ih]

/-- A spread update leaves every other key untouched. -/
theorem getKey_setKey_other (m : Meta) (k k' : String) (v : Json)
    (h : k' ≠ k) : getKey (setKey m k v) k' = getKey m k' := by
  unfold setKey
  by_cases hm : m.any (fun p => p.1 == k)
  · simp only [hm, if_pos]
    exact getKey_map_update m k k' v h
  · simp only [hm, if_neg, Bool.not_eq_true]
    exact getKey_append_single m k k' v h

/-- Reading the written key back after a spread update yields the new value. -/
theorem getKey_setKey_self (m : Meta) (k : String) (v : Json) :
    getKey (setKey m k v) k = some v := by
  unfold setKey
  by_cases hm : m.any (fun p => p.1 == k)
  · simp only [hm, if_pos]
    induction m with
    | nil => simp at hm
    | cons p m ih =>
      by_cases hp : p.1 = k
      · simp [getKey, hp]
      · have hm' : m.any (fun p => p.1 == k) := by
          simp [List.any_cons, hp] at hm
          simpa using hm
        simp [getKey, hp, ih hm']
  · simp only [hm, if_neg, Bool.not_eq_true]
    induction m with
    | nil => simp [getKey]
    | cons p m ih =>
      have hp : p.1 ≠ k := by
        intro hc
        simp [List.any_cons, hc] at hm
      have hm' : ¬ m.any (fun p => p.1 == k) := by
        simp [List.any_cons] at hm
        simpa using hm.2
      simp [getKey, hp, ih hm']

end Meta

/-! Auxiliary lemmas about the record codecs. -/

theorem decodeNote_encodeNote (n : Note) : decodeNote (encodeNote n) = some n := by
  cases n with
  | mk i c t a e => cases e <;> rfl

theorem decodeQuicklink_encodeQuicklink (q : Quicklink) :
    decodeQuicklink (encodeQuicklink q) = some q := by
  cases q with
  | mk t l ty => cases ty <;> rfl

theorem decodeNoteList_map_encodeNote (l : List Note) :
    decodeNoteList (l.map encodeNote) = some l := by
  induction l with
  | nil => rfl
  | cons n l ih => simp [decodeNoteList, decodeNote_encodeNote, ih]

theorem decodeQuicklinkList_map_encodeQuicklink (l : List Quicklink) :
    decodeQuicklinkList (l.map encodeQuicklink) = some l := by
  induction l with
  | nil => rfl
  | cons q l ih => simp [decodeQuicklinkList, decodeQuicklink_encodeQuicklink, ih]

/-! Auxiliary lemmas about the list mutations. -/

theorem enumFrom_filter_out_of_range (l : List Quicklink) (n index : Nat)
    (h : index < n ∨ n + l.length ≤ index) :
    ((List.enumFrom n l).filter (fun p => p.1 != index)).map (fun p => p.2) = l := by
  induction l generalizing n with
  | nil => rfl
  | cons q l ih =>
    have hn : (n != index) = true := by
      simp only [bne_iff_ne, ne_eq]
      rcases h with h | h
      · omega
      · simp only [List.length_cons] at h
        omega
    have h' : index < n + 1 ∨ (n + 1) + l.length ≤ index := by
      rcases h with h | h
      · left; omega
      · right
        simp only [List.length_cons] at h
        omega
    simp [List.enumFrom, List.filter_cons, hn, ih (n + 1) h']

theorem removeAtIdx_of_length_le (l : List Quicklink) (index : Nat)
    (h : l.length ≤ index) : removeAtIdx l index = l := by
  unfold removeAtIdx
  have := enumFrom_filter_out_of_range l 0 index (Or.inr (by omega))
  simpa [List.enum] using this

/-! Auxiliary lemmas about the write-back primitives. -/

theorem notes_wb_notes_unchanged (st : NotesState) (l : List Note)
    (o : NotesOutcome) :
    (updateCustomerMetadata st l o).state.notes = st.notes := by
  unfold updateCustomerMetadata
  cases hst : st.customer with
  | none => rfl
  | some c =>
    by_cases hid : c.id = ""
    · simp [hid]
    · cases o.retrieve with
      | err => simp [hid]
      | ok latest =>
        cases hu : o.update with
        | err => simp [hid]
        | ok v => cases v <;> simp [hid]

theorem notes_wb_success_false (st : NotesState) (l : List Note)
    (o : NotesOutcome) (h : notesWBFails o = true) :
    (updateCustomerMetadata st l o).success = false := by
  unfold updateCustomerMetadata
  cases hst : st.customer with
  | none => rfl
  | some c =>
    by_cases hid : c.id = ""
    · simp [hid]
    · cases hre : o.retrieve with
      | err => simp [hid]
      | ok latest =>
        cases hu : o.update with
        | err => simp [hid]
        | ok v =>
          cases v with
          | none => simp [hid]
          | some updated => simp [notesWBFails, hre, hu] at h

theorem notes_wb_sent (st : NotesState) (c latest : Customer) (l : List Note)
    (o : NotesOutcome) (hc : st.customer = some c) (hid : c.id ≠ "")
    (hre : o.retrieve = RCall.ok latest) :
    (updateCustomerMetadata st l o).sent = some (sentNotesMeta latest l) := by
  unfold updateCustomerMetadata
  rw [hc, hre]
  cases hu : o.update with
  | err => simp [hid]
  | ok v => cases v <;> simp [hid]

theorem ql_wb_quicklinks_unchanged (st : QLState) (l : List Quicklink)
    (o : QLOutcome) :
    (updateProductMetadata st l o).state.quicklinks = st.quicklinks := by
  unfold updateProductMetadata
  cases hst : st.currentProduct with
  | none => rfl
  | some p =>
    by_cases hid : p.id = ""
    · simp [hid]
    · cases o.retrieve with
      | err => simp [hid]
      | ok latest =>
        cases hu : o.update with
        | err => simp [hid]
        | ok v => simp [hid]

theorem ql_wb_success_false (st : QLState) (l : List Quicklink)
    (o : QLOutcome) (h : qlWBFails o = true) :
    (updateProductMetadata st l o).success = false := by
  unfold updateProductMetadata
  cases hst : st.currentProduct with
  | none => rfl
  | some p =>
    by_cases hid : p.id = ""
    · simp [hid]
    · cases hre : o.retrieve with
      | err => simp [hid]
      | ok latest =>
        cases hu : o.update with
        | err => simp [hid]
        | ok v => simp [qlWBFails, hre, hu] at h

theorem ql_wb_sent (st : QLState) (p latest : Product) (l : List Quicklink)
    (o : QLOutcome) (hp : st.currentProduct = some p) (hid : p.id ≠ "")
    (hre : o.retrieve = RCall.ok latest) :
    (updateProductMetadata st l o).sent = some (sentQLMeta latest l) := by
  unfold updateProductMetadata
  rw [hp, hre]
  cases hu : o.update with
  | err => simp [hid]
  | ok v => simp [hid]

theorem ql_wb_never_alerts (st : QLState) (l : List Quicklink) (o : QLOutcome) :
    (updateProductMetadata st l o).alerted = false := by
  unfold updateProductMetadata
  cases hst : st.currentProduct with
  | none => rfl
  | some p =>
    by_cases hid : p.id = ""
    · simp [hid]
    · cases o.retrieve with
      | err => simp [hid]
      | ok latest =>
        cases hu : o.update with
        | err => simp [hid]
        | ok v => simp [hid]

theorem pw_never_alerts (st : PwState) (v : Bool) (u : RCall (Option Customer)) :
    (handleOptionChange st v u).alerted = false := by
  unfold handleOptionChange
  cases hst : st.customer with
  | none => rfl
  | some c =>
    by_cases hid : c.id = ""
    · simp [hid]
    · cases u with
      | err => simp [hid]
      | ok w => cases w <;> simp [hid]

theorem deleteNote_snd (st : NotesState) (noteId : Int) (o : NotesOutcome) :
    (deleteNote st noteId o).2 =
      updateCustomerMetadata st (deleteNoteList st.notes noteId) o := by
  unfold deleteNote
  by_cases h : (updateCustomerMetadata st (deleteNoteList st.notes noteId) o).success <;>
    simp [h]

theorem handleRemoveQuicklink_snd (st : QLState) (index : Nat) (o : QLOutcome) :
    (handleRemoveQuicklink st index o).2 =
      updateProductMetadata st (removeAtIdx st.quicklinks index) o := by
  unfold handleRemoveQuicklink
  by_cases h : (updateProductMetadata st (removeAtIdx st.quicklinks index) o).success <;>
    simp [h]

/-! The claims. -/

/-- C2: for every list write-back (notes and quicklinks) the metadata
object sent in the update request is the freshly re-fetched remote
metadata with only the synchronized field (`notes` / `quicklinks`)
replaced by the JSON encoding of the new list; every unrelated key keeps
its freshly fetched value unchanged. -/
theorem c2_writeback_preserves_unrelated_keys
    (st : NotesState) (l : List Note) (o : NotesOutcome) (latest : Customer)
    (md : Meta) (hre : o.retrieve = RCall.ok latest)
    (hsent : (updateCustomerMetadata st l o).sent = some md)
    (stq : QLState) (lq : List Quicklink) (oq : QLOutcome) (latestq : Product)
    (mdq : Meta) (hreq : oq.retrieve = RCall.ok latestq)
    (hsentq : (updateProductMetadata stq lq oq).sent = some mdq) :
    (Meta.getKey md "notes" = some (Json.str (stringifyNotes l)) ∧
      ∀ k, k ≠ "notes" → Meta.getKey md k = Meta.getKey (latest.metadata.getD []) k) ∧
    (Meta.getKey mdq "quicklinks" = some (Json.str (stringifyQuicklinks lq)) ∧
      ∀ k, k ≠ "quicklinks" →
        Meta.getKey mdq k = Meta.getKey (latestq.metadata.getD []) k) := by
  obtain ⟨c, hc⟩ : ∃ c, st.customer = some c := by
    cases hst : st.customer with
    | none => simp [updateCustomerMetadata, hst] at hsent
    | some c => exact ⟨c, rfl⟩
  have hid : c.id ≠ "" := by
    intro h0
    simp [updateCustomerMetadata, hc, h0] at hsent
  obtain ⟨p, hp⟩ : ∃ p, stq.currentProduct = some p := by
    cases hst : stq.currentProduct with
    | none => simp [updateProductMetadata, hst] at hsentq
    | some p => exact ⟨p, rfl⟩
  have hpid : p.id ≠ "" := by
    intro h0
    simp [updateProductMetadata, hp, h0] at hsentq
  rw [notes_wb_sent st c latest l o hc hid hre] at hsent
  rw [ql_wb_sent stq p latestq lq oq hp hpid hreq] at hsentq
  have hmd : md = sentNotesMeta latest l := by
    injection hsent with h
    exact h.symm
  have hmdq : mdq = sentQLMeta latestq lq := by
    injection hsentq with h
    exact h.symm
  subst hmd
  subst hmdq
  unfold sentNotesMeta sentQLMeta
  refine ⟨⟨Meta.getKey_setKey_self _ _ _, ?_⟩, ⟨Meta.getKey_setKey_self _ _ _, ?_⟩⟩
  · intro k hk
    exact Meta.getKey_setKey_other _ _ _ _ hk
  · intro k hk
    exact Meta.getKey_setKey_other _ _ _ _ hk

/-- C2 witness: a concrete write-back of one note (resp. one quicklink)
over a freshly fetched bag holding the unrelated key `a ↦ 1`: the sent
bag carries the new encoded list and still maps `a` to `1`. -/
theorem c2_writeback_preserves_unrelated_keys_witness :
    Meta.getKey (sentNotesMeta custLatest [noteA]) "notes" =
      some (Json.str (stringifyNotes [noteA])) ∧
    Meta.getKey (sentNotesMeta custLatest [noteA]) "a" = some (Json.num 1) ∧
    Meta.getKey (sentQLMeta prodLatest [qlA]) "quicklinks" =
      some (Json.str (stringifyQuicklinks [qlA])) ∧
    Meta.getKey (sentQLMeta prodLatest [qlA]) "a" = some (Json.num 1) := by
  have h := c2_writeback_preserves_unrelated_keys notesStFx [noteA] notesOutOk
    custLatest (sentNotesMeta custLatest [noteA]) rfl
    (notes_wb_sent notesStFx custBase custLatest [noteA] notesOutOk rfl
      (by decide) rfl)
    qlStFx [qlA] qlOutOk prodLatest (sentQLMeta prodLatest [qlA]) rfl
    (ql_wb_sent qlStFx prodBase prodLatest [qlA] qlOutOk rfl (by decide) rfl)
  exact ⟨h.1.1, (h.1.2 "a" (by decide)).trans (by decide),
    h.2.1, (h.2.2 "a" (by decide)).trans (by decide)⟩

/-- C7: removing an absent key is an idempotent no-op that still performs
the full write-back: the computed list equals the input list, the
persisted JSON string is byte-identical, and the delete handler performs
exactly the write-back of that unchanged list (notes remove-by-id and
quicklinks remove-by-index alike). -/
theorem c7_remove_absent_key_idempotent (L : List Note) (k : Int)
    (hk : ∀ n ∈ L, n.id ≠ k) (Q : List Quicklink) (i : Nat) (hi : Q.length ≤ i) :
    deleteNoteList L k = L ∧
    stringifyNotes (deleteNoteList L k) = stringifyNotes L ∧
    (∀ st o, st.notes = L → (deleteNote st k o).2 = updateCustomerMetadata st L o) ∧
    removeAtIdx Q i = Q ∧
    stringifyQuicklinks (removeAtIdx Q i) = stringifyQuicklinks Q ∧
    (∀ st o, st.quicklinks = Q →
      (handleRemoveQuicklink st i o).2 = updateProductMetadata st Q o) := by
  have h1 : deleteNoteList L k = L := by
    unfold deleteNoteList
    apply List.filter_eq_self.mpr
    intro n hn
    simpa [bne_iff_ne] using hk n hn
  have h2 : removeAtIdx Q i = Q := removeAtIdx_of_length_le Q i hi
  refine ⟨h1, by rw [h1], ?_, h2, by rw [h2], ?_⟩
  · intro st o hst
    rw [deleteNote_snd, hst, h1]
  · intro st o hst
    rw [handleRemoveQuicklink_snd, hst, h2]

/-- C7 witness: deleting id `99` from a one-note list (resp. index `5`
from a one-quicklink list) leaves list and encoding untouched and still
runs the write-back of the unchanged list. -/
theorem c7_remove_absent_key_idempotent_witness :
    deleteNoteList [noteA] 99 = [noteA] ∧
    stringifyNotes (deleteNoteList [noteA] 99) = stringifyNotes [noteA] ∧
    (deleteNote notesStFx 99 notesOutFail).2 =
      updateCustomerMetadata notesStFx [noteA] notesOutFail ∧
    removeAtIdx [qlA] 5 = [qlA] ∧
    (handleRemoveQuicklink qlStFx 5 qlOutFail).2 =
      updateProductMetadata qlStFx [qlA] qlOutFail := by
  have h := c7_remove_absent_key_idempotent [noteA] 99 (by decide) [qlA] 5 (by decide)
  exact ⟨h.1, h.2.1, h.2.2.1 notesStFx notesOutFail rfl, h.2.2.2.1,
    h.2.2.2.2.2 qlStFx qlOutFail rfl⟩

/-- C8: encoding then decoding is the identity on typed lists: the JSON
array written by the write-back, read back through the load path's parse,
array check and elementwise cast, yields the same list (notes and
quicklinks alike). -/
theorem c8_decode_encode_roundtrip (L : List Note) (Q : List Quicklink) :
    decodeNotes (encodeNotes L) = some L ∧
    decodeQuicklinks (encodeQuicklinks Q) = some Q :=
  ⟨decodeNoteList_map_encodeNote L, decodeQuicklinkList_map_encodeQuicklink Q⟩

/-- C9: the password-restriction load defaults to `true` both when the
customer has no metadata bag and when the bag lacks the
`can_change_password` key. -/
theorem c9_flag_defaults_true_when_absent (c : Customer) (m : Meta) :
    (c.metadata = none → loadPasswordOption c = Json.bool true) ∧
    (c.metadata = some m → Meta.getKey m "can_change_password" = none →
      loadPasswordOption c = Json.bool true) := by
  constructor
  · intro h
    simp [loadPasswordOption, h]
  · intro h hk
    simp [loadPasswordOption, h, hk]

/-- C9 witness: a customer without a metadata bag, and one whose bag only
holds the unrelated key `a`, both load as `true`. -/
theorem c9_flag_defaults_true_when_absent_witness :
    loadPasswordOption ⟨"cus_1", none⟩ = Json.bool true ∧
    loadPasswordOption custLatest = Json.bool true := by
  refine ⟨(c9_flag_defaults_true_when_absent ⟨"cus_1", none⟩ []).1 rfl, ?_⟩
  exact (c9_flag_defaults_true_when_absent custLatest [("a", Json.num 1)]).2 rfl
    (by decide)

/-- C10: `deleteNote` removes every note whose id matches (not only the
first) and keeps the remaining notes in relative order: the computed list
is a sublist of the input, contains no matching id, retains every
non-matching note, and preserves multiplicities of non-matching notes. -/
theorem c10_deleteNote_removes_all_matches (L : List Note) (k : Int) :
    (deleteNoteList L k).Sublist L ∧
    (∀ n, n ∈ deleteNoteList L k → n.id ≠ k) ∧
    (∀ n, n ∈ L → n.id ≠ k → n ∈ deleteNoteList L k) ∧
    (∀ n, n.id ≠ k → (deleteNoteList L k).count n = L.count n) := by
  refine ⟨List.filter_sublist _, ?_, ?_, ?_⟩
  · intro n hn
    have := (List.mem_filter.mp hn).2
    simpa [bne_iff_ne] using this
  · intro n hn hid
    exact List.mem_filter.mpr ⟨hn, by simpa [bne_iff_ne] using hid⟩
  · intro n hid
    exact List.count_filter (by simpa [bne_iff_ne] using hid)

/-- C10 witness: deleting id `2` from `[noteA, noteB]` keeps `noteA` (a
sublist in order, with its multiplicity intact). -/
theorem c10_deleteNote_removes_all_matches_witness :
    (deleteNoteList [noteA, noteB] 2).Sublist [noteA, noteB] ∧
    noteA ∈ deleteNoteList [noteA, noteB] 2 ∧
    (deleteNoteList [noteA, noteB] 2).count noteA = ([noteA, noteB]).count noteA := by
  have h := c10_deleteNote_removes_all_matches [noteA, noteB] 2
  exact ⟨h.1, h.2.2.1 noteA (by decide) (by decide), h.2.2.2 noteA (by decide)⟩

/-- C1 counterexample: with the cached bag `a ↦ 1` and the remote bag
changed out-of-band to `a ↦ 2`, `handleOptionChange` writes the stale
`a ↦ 1`: the written bag is NOT the freshly re-fetched bag with only the
`can_change_password` key replaced.  (The handler takes no retrieve
outcome at all, because the source issues no re-fetch.) -/
theorem c1_set_refetch_merge_counterexample :
    (handleOptionChange pwStFx true (RCall.ok (some pwRemote))).sent ≠
      some (specFlagSent pwRemote.metadata true) := by decide

/-- C1 amended: `set(value)` issues NO re-fetch; the written bag is the
merge of the widget's CACHED customer metadata with the new flag value:
the `can_change_password` key carries the new value and every other key
keeps its cached value (so out-of-band remote changes can be
clobbered). -/
theorem c1_set_merges_cached_metadata (st : PwState) (c : Customer) (v : Bool)
    (u : RCall (Option Customer)) (hc : st.customer = some c) (hid : c.id ≠ "") :
    (handleOptionChange st v u).sent =
      some (Meta.setKey (c.metadata.getD []) "can_change_password" (Json.bool v)) ∧
    ∀ md, (handleOptionChange st v u).sent = some md →
      Meta.getKey md "can_change_password" = some (Json.bool v) ∧
      ∀ k, k ≠ "can_change_password" →
        Meta.getKey md k = Meta.getKey (c.metadata.getD []) k := by
  have hsent : (handleOptionChange st v u).sent =
      some (Meta.setKey (c.metadata.getD []) "can_change_password" (Json.bool v)) := by
    unfold handleOptionChange
    rw [hc]
    cases u with
    | err => simp [hid]
    | ok w => cases w <;> simp [hid]
  refine ⟨hsent, ?_⟩
  intro md hmd
  rw [hsent] at hmd
  have heq : Meta.setKey (c.metadata.getD []) "can_change_password" (Json.bool v) = md := by
    injection hmd
  subst heq
  refine ⟨Meta.getKey_setKey_self _ _ _, ?_⟩
  intro k hk
  exact Meta.getKey_setKey_other _ _ _ _ hk

/-- C1 amended witness: a concrete `set(false)` over the cached bag
`a ↦ 1` writes exactly that bag with the flag added. -/
theorem c1_set_merges_cached_metadata_witness :
    (handleOptionChange pwStFx false RCall.err).sent =
      some (Meta.setKey [("a", Json.num 1)] "can_change_password" (Json.bool false)) ∧
    Meta.getKey (Meta.setKey [("a", Json.num 1)] "can_change_password"
      (Json.bool false)) "a" = some (Json.num 1) := by
  have h := c1_set_merges_cached_metadata pwStFx pwCached false RCall.err rfl (by decide)
  exact ⟨h.1, ((h.2 _ h.1).2 "a" (by decide)).trans (by decide)⟩

/-- C3 counterexample: a quicklinks append whose update resolves without
a confirmed entity (an "unconfirmed response", listed by the claim as a
failure) is still committed: the local list after the call differs from
the one before. -/
theorem c3_atomic_commit_counterexample :
    (handleAddQuicklink qlStFx qlOutUnconfirmed).1.quicklinks ≠
      qlStFx.quicklinks := by decide

/-- C3 amended: whenever a write-back reports failure the local list is
left exactly at its prior value, for every mutation in every widget —
for notes on a re-fetch error, an update error or an entity-less
response; for quicklinks on a re-fetch or update error only (quicklinks
treats an entity-less update response as success and commits); the flag
widget keeps the prior flag on failure.  An append is all-or-nothing:
the result is the prior list or the prior list plus exactly the new
item, never a partial state. -/
theorem c3_failed_writeback_leaves_list_unchanged
    (st : NotesState) (now : Int) (nowIso : String) (k : Int) (o : NotesOutcome)
    (stq : QLState) (i : Nat) (oq : QLOutcome)
    (stp : PwState) (v : Bool) (u : RCall (Option Customer)) :
    (notesWBFails o = true →
      (addNote st now nowIso o).1.notes = st.notes ∧
      (deleteNote st k o).1.notes = st.notes ∧
      (saveEdit st k nowIso o).1.notes = st.notes) ∧
    (qlWBFails oq = true →
      (handleAddQuicklink stq oq).1.quicklinks = stq.quicklinks ∧
      (handleRemoveQuicklink stq i oq).1.quicklinks = stq.quicklinks) ∧
    ((handleAddQuicklink stq oq).1.quicklinks = stq.quicklinks ∨
      ∃ q, (handleAddQuicklink stq oq).1.quicklinks = stq.quicklinks ++ [q]) ∧
    ((handleOptionChange stp v u).success = false →
      (handleOptionChange stp v u).state.passwordOption = stp.passwordOption) := by
  refine ⟨?_, ?_, ?_, ?_⟩
  · intro hf
    refine ⟨?_, ?_, ?_⟩
    · unfold addNote
      by_cases hg : jsTrim st.newNote = ""
      · simp [hg]
      · have hs := notes_wb_success_false st
          (st.notes ++ [⟨now, jsTrim st.newNote, nowIso, "Admin", none⟩]) o hf
        have hn := notes_wb_notes_unchanged st
          (st.notes ++ [⟨now, jsTrim st.newNote, nowIso, "Admin", none⟩]) o
        simp [hg, hs, hn]
    · unfold deleteNote
      have hs := notes_wb_success_false st (deleteNoteList st.notes k) o hf
      have hn := notes_wb_notes_unchanged st (deleteNoteList st.notes k) o
      simp [hs, hn]
    · unfold saveEdit
      have hs := notes_wb_success_false st
        (saveEditList st.notes k (jsTrim st.newNote) nowIso) o hf
      have hn := notes_wb_notes_unchanged st
        (saveEditList st.notes k (jsTrim st.newNote) nowIso) o
      simp [hs, hn]
  · intro hf
    constructor
    · unfold handleAddQuicklink
      by_cases hg : jsTrim stq.link = "" ∨ (stq.linkType = LinkType.custom ∧ jsTrim stq.title = "")
      · simp [hg]
      · have hs := ql_wb_success_false stq
          (stq.quicklinks ++
            [⟨if stq.title = "" then stq.link else stq.title, jsTrim stq.link, stq.linkType⟩])
          oq hf
        have hn := ql_wb_quicklinks_unchanged stq
          (stq.quicklinks ++
            [⟨if stq.title = "" then stq.link else stq.title, jsTrim stq.link, stq.linkType⟩])
          oq
        simp [hg, hs, hn]
    · unfold handleRemoveQuicklink
      have hs := ql_wb_success_false stq (removeAtIdx stq.quicklinks i) oq hf
      have hn := ql_wb_quicklinks_unchanged stq (removeAtIdx stq.quicklinks i) oq
      simp [hs, hn]
  · unfold handleAddQuicklink
    by_cases hg : jsTrim stq.link = "" ∨ (stq.linkType = LinkType.custom ∧ jsTrim stq.title = "")
    · left
      simp [hg]
    · by_cases hs : (updateProductMetadata stq
          (stq.quicklinks ++
            [⟨if stq.title = "" then stq.link else stq.title, jsTrim stq.link, stq.linkType⟩])
          oq).success
      · right
        refine ⟨⟨if stq.title = "" then stq.link else stq.title, jsTrim stq.link,
          stq.linkType⟩, ?_⟩
        simp [hg, hs]
      · left
        have hn := ql_wb_quicklinks_unchanged stq
          (stq.quicklinks ++
            [⟨if stq.title = "" then stq.link else stq.title, jsTrim stq.link, stq.linkType⟩])
          oq
        simp [hg, hs, hn]
  · intro hf
    cases hst : stp.customer with
    | none => unfold handleOptionChange; rw [hst]
    | some c =>
      by_cases hid : c.id = ""
      · unfold handleOptionChange
        rw [hst]
        simp [hid]
      · cases u with
        | err =>
          unfold handleOptionChange
          rw [hst]
          simp [hid]
        | ok w =>
          cases w with
          | none =>
            unfold handleOptionChange
            rw [hst]
            simp [hid]
          | some updated =>
            exfalso
            unfold handleOptionChange at hf
            rw [hst] at hf
            simp [hid] at hf

/-- C3 amended witness: concrete failing outcomes leave the one-note and
one-quicklink lists (and the flag) exactly unchanged. -/
theorem c3_failed_writeback_leaves_list_unchanged_witness :
    notesWBFails notesOutFail = true ∧
    qlWBFails qlOutFail = true ∧
    (addNote notesStFx 5 "t" notesOutFail).1.notes = notesStFx.notes ∧
    (deleteNote notesStFx 1 notesOutFail).1.notes = notesStFx.notes ∧
    (saveEdit notesStFx 1 "t" notesOutFail).1.notes = notesStFx.notes ∧
    (handleAddQuicklink qlStFx qlOutFail).1.quicklinks = qlStFx.quicklinks ∧
    (handleRemoveQuicklink qlStFx 0 qlOutFail).1.quicklinks = qlStFx.quicklinks ∧
    (handleOptionChange pwStFx false RCall.err).state.passwordOption =
      pwStFx.passwordOption := by
  have h := c3_failed_writeback_leaves_list_unchanged notesStFx 5 "t" 1 notesOutFail
    qlStFx 0 qlOutFail pwStFx false RCall.err
  have hn : notesWBFails notesOutFail = true := by decide
  have hq : qlWBFails qlOutFail = true := by decide
  exact ⟨hn, hq, (h.1 hn).1, (h.1 hn).2.1, (h.1 hn).2.2, (h.2.1 hq).1, (h.2.1 hq).2,
    h.2.2.2 (by decide)⟩

/-- C4 counterexample: a failing quicklinks write-back (update throws)
raises no alert — the quicklinks widget has no alert call — refuting
"blocking alert for every list-widget mutation failure". -/
theorem c4_alert_counterexample :
    (updateProductMetadata qlStFx [qlA] qlOutFail).success = false ∧
    (updateProductMetadata qlStFx [qlA] qlOutFail).alerted = false := by decide

/-- C4 amended: only the NOTES widget surfaces write-back failure with a
blocking alert (plus a log); the quicklinks widget never alerts (its
failures are logged only), and the boolean-flag widget never alerts
either (its failures are logged only). -/
theorem c4_alert_only_in_notes_widget
    (st : NotesState) (c : Customer) (l : List Note) (o : NotesOutcome)
    (hc : st.customer = some c) (hid : c.id ≠ "") (hf : notesWBFails o = true)
    (stq : QLState) (lq : List Quicklink) (oq : QLOutcome)
    (stp : PwState) (cp : Customer) (v : Bool) (u : RCall (Option Customer)) :
    (updateCustomerMetadata st l o).alerted = true ∧
    (updateCustomerMetadata st l o).logged = true ∧
    (updateProductMetadata stq lq oq).alerted = false ∧
    (handleOptionChange stp v u).alerted = false ∧
    (stp.customer = some cp → cp.id ≠ "" →
      (handleOptionChange stp v u).success = false →
      (handleOptionChange stp v u).logged = true) := by
  have hna : (updateCustomerMetadata st l o).alerted = true ∧
      (updateCustomerMetadata st l o).logged = true := by
    unfold updateCustomerMetadata
    rw [hc]
    cases hre : o.retrieve with
    | err => simp [hid]
    | ok latest =>
      cases hu : o.update with
      | err => simp [hid]
      | ok w =>
        cases w with
        | none => simp [hid]
        | some updated => simp [notesWBFails, hre, hu] at hf
  have hpl : stp.customer = some cp → cp.id ≠ "" →
      (handleOptionChange stp v u).success = false →
      (handleOptionChange stp v u).logged = true := by
    intro hcp hcpid hfs
    cases u with
    | err =>
      unfold handleOptionChange
      rw [hcp]
      simp [hcpid]
    | ok w =>
      cases w with
      | none =>
        unfold handleOptionChange
        rw [hcp]
        simp [hcpid]
      | some updated =>
        exfalso
        unfold handleOptionChange at hfs
        rw [hcp] at hfs
        simp [hcpid] at hfs
  exact ⟨hna.1, hna.2, ql_wb_never_alerts stq lq oq, pw_never_alerts stp v u, hpl⟩

/-- C4 amended witness: concrete failing write-backs — the notes one
alerts, the quicklinks and flag ones do not (the flag one logs). -/
theorem c4_alert_only_in_notes_widget_witness :
    notesWBFails notesOutFail = true ∧
    (updateCustomerMetadata notesStFx [noteA] notesOutFail).alerted = true ∧
    (updateProductMetadata qlStFx [qlA] qlOutFail).alerted = false ∧
    (handleOptionChange pwStFx false RCall.err).alerted = false ∧
    (handleOptionChange pwStFx false RCall.err).logged = true := by
  have h := c4_alert_only_in_notes_widget notesStFx custBase [noteA] notesOutFail rfl
    (by decide) (by decide) qlStFx [qlA] qlOutFail pwStFx pwCached false RCall.err
  exact ⟨by decide, h.1, h.2.2.1, h.2.2.2.1, h.2.2.2.2 rfl (by decide) (by decide)⟩

/-- C5 counterexample: a quicklinks update that resolves WITHOUT an
updated entity is treated as success — the response payload is never
inspected — refuting "an update response without an entity is treated as
failure" for every list widget. -/
theorem c5_unconfirmed_response_counterexample :
    (updateProductMetadata qlStFx [qlA] qlOutUnconfirmed).success = true := by decide

/-- C5 amended: write-backs return failure rather than throwing (they
are total functions of the outcome): the notes write-back fails exactly
on a re-fetch error, an update error or an update response without a
customer; the quicklinks write-back fails only on a thrown re-fetch or
update, and reports success for any resolved update — even one carrying
no entity. -/
theorem c5_writeback_failure_conditions
    (st : NotesState) (l : List Note) (o : NotesOutcome)
    (stq : QLState) (pq latestq : Product) (lq : List Quicklink) (oq : QLOutcome) :
    (notesWBFails o = true → (updateCustomerMetadata st l o).success = false) ∧
    (qlWBFails oq = true → (updateProductMetadata stq lq oq).success = false) ∧
    (stq.currentProduct = some pq → pq.id ≠ "" →
      oq.retrieve = RCall.ok latestq → oq.update = RCall.ok none →
      (updateProductMetadata stq lq oq).success = true) := by
  refine ⟨fun hf => notes_wb_success_false st l o hf,
    fun hf => ql_wb_success_false stq lq oq hf, ?_⟩
  intro hp hid hre hu
  unfold updateProductMetadata
  rw [hp, hre, hu]
  simp [hid]

/-- C5 amended witness: concrete outcomes — thrown updates fail in both
list widgets, an entity-less quicklinks update response succeeds. -/
theorem c5_writeback_failure_conditions_witness :
    notesWBFails notesOutFail = true ∧
    (updateCustomerMetadata notesStFx [noteA] notesOutFail).success = false ∧
    qlWBFails qlOutFail = true ∧
    (updateProductMetadata qlStFx [qlA] qlOutFail).success = false ∧
    (updateProductMetadata qlStFx [qlA] qlOutUnconfirmed).success = true := by
  have h1 := c5_writeback_failure_conditions notesStFx [noteA] notesOutFail qlStFx
    prodBase prodLatest [qlA] qlOutFail
  have h2 := c5_writeback_failure_conditions notesStFx [noteA] notesOutFail qlStFx
    prodBase prodLatest [qlA] qlOutUnconfirmed
  exact ⟨by decide, h1.1 (by decide), by decide, h1.2.1 (by decide),
    h2.2.2 rfl (by decide) rfl rfl⟩

/-- C6 counterexample: a field holding `"5"` parses successfully to a
non-array value; the load path yields the empty list but logs NOTHING
(the `Array.isArray` ternary replaces the value silently), refuting
"logs the error" for the non-array decode case. -/
theorem c6_decode_failure_counterexample :
    isArrCall (RCall.ok (Json.num 5)) = false ∧
    loadListField (some (Json.str "5")) (RCall.ok (Json.num 5)) = ([], false) := by
  decide

/-- C6 amended: whenever the parse outcome is not an array (a thrown
parse or a non-array value), the load path yields the empty list and —
being a total function — never raises past the component boundary; the
error is logged exactly when the field was present and truthy AND the
parse threw (a successfully parsed non-array, or an absent or falsy
field, is silently replaced by the empty list). -/
theorem c6_malformed_field_loads_empty (field : Option Json) (parsed : RCall Json)
    (hbad : isArrCall parsed = false) :
    (loadListField field parsed).1 = [] ∧
    ((loadListField field parsed).2 = true ↔
      (∃ v, field = some v ∧ v.truthy = true) ∧ parsed = RCall.err) := by
  cases field with
  | none => simp [loadListField]
  | some v =>
    by_cases ht : v.truthy
    · cases parsed with
      | err => simp [loadListField, ht]
      | ok j =>
        cases j with
        | arr xs => simp [isArrCall] at hbad
        | null => simp [loadListField, ht]
        | bool b => simp [loadListField, ht]
        | num n => simp [loadListField, ht]
        | str s => simp [loadListField, ht]
        | obj fs => simp [loadListField, ht]
    · simp [loadListField, ht]

/-- C6 amended witness: the field `"not-json"` with a thrown parse loads
as the empty list. -/
theorem c6_malformed_field_loads_empty_witness :
    isArrCall (RCall.err : RCall Json) = false ∧
    (loadListField (some (Json.str "not-json")) RCall.err).1 = [] := by
  exact ⟨by decide,
    (c6_malformed_field_loads_empty (some (Json.str "not-json")) RCall.err
      (by decide)).1⟩

end Widgets
